import Mathlib

/-!
Verification of `src/lib/inputstreamhelper/utils.py` (script.module.inputstreamhelper).

The Python source is shallowly embedded below.  External collaborators
(Kodi settings, `xbmcvfs`, `urllib`, `zipfile`, `hashlib`, dialogs) are
modelled as explicit state / environment records and event traces, exactly
at the granularity the source calls them:

* `exists`/`mkdirs`/`islink`/`unlink` act on an explicit filesystem record;
* `urlopen` is an environment-provided response (status code, optional
  `content-length` value, the successive chunks the stream yields);
* `progress.iscanceled()` polls are the successive booleans of an
  environment-provided list (one per poll, `false` once exhausted);
* `hashlib.sha1`/`md5` incremental hashing of the written chunks is
  modelled by applying an environment-provided digest function to the
  concatenation of the bytes fed to `update` (incremental hashing of a
  stream equals hashing the concatenation);
* Python floats on integer inputs are modelled exactly: `float(None)`
  raises `TypeError`, `x / 0.0` raises `ZeroDivisionError`, and
  `int(size * 100 / total)` is `size * 100 / total` in truncated
  (floor, both operands nonnegative) division;
* every observable side effect (dialog, log, stream read, file write,
  close, stat, move, mkdirs, unlink, extract) is recorded in an event list
  in the exact program order of the source.
-/

namespace ISH

/-- Python `os.path.join(a, b)` for POSIX, two arguments: an absolute
second component (starting with `'/'`) discards the first. -/
def osPathJoin (a b : String) : String :=
  if b.data.take 1 = ['/'] then b
  else if a = "" then b
  else if a.data.getLast? = some '/' then a ++ b
  else a ++ "/" ++ b

/-- Python `str.split('/')`: split at every `'/'` (no merging of empty
fields). -/
def splitSlash : List Char → List Char → List String
  | [], acc => [String.mk acc.reverse]
  | c :: rest, acc =>
    if c = '/' then String.mk acc.reverse :: splitSlash rest []
    else splitSlash rest (c :: acc)

/-- Python `url.split('/')[-1]`: the final segment of a `/`-separated
string (`str.split` always yields a nonempty list). -/
def lastSegment (s : String) : String :=
  (splitSlash s.data []).getLastD ""

/-- Python truthiness of an optional string (`None` and `''` are falsy). -/
def strTruthy : Option String → Bool
  | none => false
  | some s => !s.isEmpty

/-- Python truthiness of an optional integer (`None` and `0` are falsy). -/
def natTruthy : Option Nat → Bool
  | none => false
  | some n => n != 0

/-! ## `unzip` (utils.py lines 122-144)

```python
def unzip(source, destination, file_to_unzip=None, result=[]):
    from xbmcvfs import exists, mkdirs
    if not exists(destination):
        mkdirs(destination)
    from zipfile import ZipFile
    zip_obj = ZipFile(source)
    for filename in zip_obj.namelist():
        if file_to_unzip and filename != file_to_unzip:
            continue
        # Detect and remove (dangling) symlinks before extraction
        fullname = os.path.join(destination, filename)
        if os.path.islink(fullname):
            log(...)
            os.unlink(fullname)
        zip_obj.extract(filename, destination)
        result.append(True)  # Pass by reference for Thread
    return bool(result)
```

The archive is represented by its name list (`zip_obj.namelist()`); the
filesystem by the set of existing directories, the set of paths that are
currently symbolic links (`os.path.islink`), and the list of regular files
written.  `zip_obj.extract(filename, destination)` is modelled as writing
the entry to `os.path.join(destination, filename)`.  `os.unlink` removes
a path from the filesystem, so it removes every model occurrence. -/

structure ZipFS where
  dirs : List String
  symlinks : List String
  files : List String
  deriving DecidableEq, Repr

inductive ZEv where
  | mkdirs (p : String)
  | logSymlink (p : String)
  | unlink (p : String)
  | extract (name dest : String)
  deriving DecidableEq, Repr

/-- Effect of one filesystem event on the model filesystem. -/
def applyZEv (fs : ZipFS) : ZEv → ZipFS
  | .mkdirs p => { fs with dirs := fs.dirs ++ [p] }
  | .logSymlink _ => fs
  | .unlink p => { fs with symlinks := fs.symlinks.filter (fun q => q ≠ p) }
  | .extract name dest => { fs with files := fs.files ++ [osPathJoin dest name] }

/-- The `for filename in zip_obj.namelist()` loop body of `unzip`,
threading the filesystem and the `result` list; returns the final
filesystem, the emitted events, and the final `result` list. -/
def unzipLoop (destination : String) (file_to_unzip : Option String) :
    List String → ZipFS → List Bool → ZipFS × List ZEv × List Bool
  | [], fs, result => (fs, [], result)
  | filename :: rest, fs, result =>
    if strTruthy file_to_unzip ∧ filename ≠ file_to_unzip.getD "" then
      unzipLoop destination file_to_unzip rest fs result
    else if osPathJoin destination filename ∈ fs.symlinks then
      let fs1 := applyZEv fs (.unlink (osPathJoin destination filename))
      let fs2 := applyZEv fs1 (.extract filename destination)
      let r := unzipLoop destination file_to_unzip rest fs2 (result ++ [true])
      (r.1, ZEv.logSymlink (osPathJoin destination filename) ::
            ZEv.unlink (osPathJoin destination filename) ::
            ZEv.extract filename destination :: r.2.1, r.2.2)
    else
      let fs2 := applyZEv fs (.extract filename destination)
      let r := unzipLoop destination file_to_unzip rest fs2 (result ++ [true])
      (r.1, ZEv.extract filename destination :: r.2.1, r.2.2)

/-- Result of one `unzip` call: final filesystem, event trace, final
contents of the `result` list object, and the Python return value
`bool(result)`. -/
structure UnzipRes where
  fs : ZipFS
  evs : List ZEv
  result : List Bool
  ret : Bool
  deriving DecidableEq, Repr

/-- `unzip(source, destination, file_to_unzip, result)`: the archive's
name list stands for `source`; `result` is the list object the call
received (the caller's list, or the persisted default — see
`unzipDefaultCall`). -/
def unzip (namelist : List String) (destination : String)
    (file_to_unzip : Option String) (result : List Bool) (fs : ZipFS) :
    UnzipRes :=
  let (fs0, evs0) :=
    if destination ∈ fs.dirs then (fs, ([] : List ZEv))
    else (applyZEv fs (.mkdirs destination), [ZEv.mkdirs destination])
  let (fs1, evs1, result1) := unzipLoop destination file_to_unzip namelist fs0 result
  ⟨fs1, evs0 ++ evs1, result1, !result1.isEmpty⟩

/-- Python evaluates the default `result=[]` once, at function definition
time; every call that omits the argument receives the same list object,
which `result.append(True)` mutates in place.  A call of
`unzip(source, destination, file_to_unzip)` therefore reads and extends a
list that persists across such calls; this wrapper threads that persistent
list explicitly.  `written` is the number of entries written by this call. -/
structure UnzipDefaultRes where
  acc : List Bool
  fs : ZipFS
  evs : List ZEv
  ret : Bool
  written : Nat
  deriving DecidableEq, Repr

def unzipDefaultCall (acc : List Bool) (namelist : List String)
    (destination : String) (file_to_unzip : Option String) (fs : ZipFS) :
    UnzipDefaultRes :=
  let r := unzip namelist destination file_to_unzip acc fs
  ⟨r.result, r.fs, r.evs, r.ret, r.result.length - acc.length⟩

/-- Checks, replaying a trace from a starting filesystem, that every
`extract` event targets a path that is not currently a symbolic link. -/
def extractsSafe (fs : ZipFS) : List ZEv → Bool
  | [] => true
  | e :: t =>
    (match e with
     | .extract name dest => !(decide (osPathJoin dest name ∈ fs.symlinks))
     | _ => true) && extractsSafe (applyZEv fs e) t

/-- Number of entries a call writes: the entries of the name list that the
skip condition `file_to_unzip and filename != file_to_unzip` lets through. -/
def writtenCount : List String → Option String → Nat
  | [], _ => 0
  | n :: rest, filt =>
    if strTruthy filt ∧ n ≠ filt.getD "" then writtenCount rest filt
    else writtenCount rest filt + 1

/-! ## `_http_request`, `http_get`, `http_download` (utils.py lines 30-119)

The environment of one request: the response `urlopen` yields (status
code, optional `content-length`, successive chunks returned by `read`),
the successive values of the `progress.iscanceled()` polls, the digest
functions of `hashlib`, and the resolved `temp_path()` directory.

`content-length` is modelled as the declared byte count:
`float(req.info().get('content-length'))` raises `TypeError` when the
header is absent (`float(None)`), and yields the number otherwise.
`req.read(chunk_size)` yields the next chunk of the list, and `b''` once
the list is exhausted or at the first empty chunk (the loop breaks there).
-/

structure DlEnv where
  url : String
  code : Nat
  contentLength : Option Nat
  chunks : List (List Nat)
  cancels : List Bool
  sha1Hex : List Nat → String
  md5Hex : List Nat → String
  tempPath : String

/-- Observable side effects, in program order. -/
inductive Ev where
  | logMsg (s : String)
  | request (url : String)
  | okDialog
  | progressCreate
  | progressUpdate (p : Nat)
  | progressClose
  | reqRead
  | fileWrite (c : List Nat)
  | fileClose
  | reqClose
  | statSize (p : String)
  deriving DecidableEq, Repr

/-- Python exceptions the embedded code can raise. -/
inductive PyErr where
  | typeError
  | zeroDivisionError
  deriving DecidableEq, Repr

/-- The value `http_download` gives back to its caller: `None`, `False`,
`(True, download_path)`, or an uncaught exception. -/
inductive DlRet where
  | retNone
  | retFalse
  | retSuccess (path : String)
  | raised (e : PyErr)
  deriving DecidableEq, Repr

/-- Which control-flow path a `http_download` call took (an observation of
the run, not part of the Python return value). -/
inductive ExitKind where
  | fetchFail
  | typeErr
  | zeroDiv
  | cancelled
  | checksumFail
  | sizeFail
  | success
  deriving DecidableEq, Repr

/-- `_http_request(url)`: logs the URL and the status code, shows the
`Failed to retrieve file` dialog and returns `None` when the status code
is in [400, 600), and otherwise returns the request object (`some ()`). -/
def _http_request (url : String) (code : Nat) : Option Unit × List Ev :=
  let t := [Ev.logMsg "Request URL", Ev.request url, Ev.logMsg "Response code"]
  if 400 ≤ code ∧ code < 600 then (none, t ++ [Ev.okDialog])
  else (some (), t)

/-- `http_get(url)`: `None` when `_http_request` failed, otherwise the
full response body (`req.read()`; `.decode()` is the identity on the
model's byte list). -/
def http_get (env : DlEnv) : Option (List Nat) × List Ev :=
  match _http_request env.url env.code with
  | (none, t) => (none, t)
  | (some _, t) => (some env.chunks.flatten, t ++ [Ev.reqRead])

/-- `progress.iscanceled()` polls: the next poll value and the remaining
ones (`false` once the environment's list is exhausted). -/
def popCancel : List Bool → Bool × List Bool
  | [] => (false, [])
  | b :: bs => (b, bs)

/-- How the `while True` chunk loop ended. -/
inductive LoopExit where
  | completed
  | cancelled
  | zeroDiv
  deriving DecidableEq, Repr

/-- What the chunk loop produced: the chunks it wrote to the file, how it
ended, and the events it emitted. -/
structure LoopRes where
  written : List (List Nat)
  exit : LoopExit
  evs : List Ev
  deriving DecidableEq, Repr

/-- The `while True` loop of `http_download`, lines 93-106.  Each
iteration: `req.read` (event `reqRead`); break on an empty chunk;
`image.write(chunk)` (event `fileWrite`); `size += len(chunk)`;
`percent = int(size * 100 / total_length)` — `ZeroDivisionError` when the
declared length is zero; poll `progress.iscanceled()` and stop when true
(`progress.close(); req.close(); return False` is emitted by the caller);
otherwise `progress.update(percent)`.  The `calc_checksum.update(chunk)`
calls feed exactly the written chunks, so the final digest is the digest
of their concatenation, taken in `http_download` below. -/
def dlLoop (L : Nat) : Nat → List (List Nat) → List Bool → LoopRes
  | _, [], _ => ⟨[], .completed, [.reqRead]⟩
  | size0, c :: rest, cancels =>
    if c.isEmpty then ⟨[], .completed, [.reqRead]⟩
    else
      let size := size0 + c.length
      if L = 0 then ⟨[c], .zeroDiv, [.reqRead, .fileWrite c]⟩
      else
        let percent := size * 100 / L
        let (b, bs) := popCancel cancels
        if b then ⟨[c], .cancelled, [.reqRead, .fileWrite c]⟩
        else
          let r := dlLoop L size rest bs
          ⟨c :: r.written, r.exit,
           .reqRead :: .fileWrite c :: .progressUpdate percent :: r.evs⟩

/-- Result of a `http_download` call: the Python return value, the path
taken, the event trace, and the bytes of `download_path` on disk (`none`
when the file was never opened). -/
structure DlResult where
  ret : DlRet
  exit : ExitKind
  trace : List Ev
  fileBytes : Option (List Nat)

/-- `http_download(url, message=None, checksum=None, hash_alg='sha1',
dl_size=None)`, lines 65-119, translated clause by clause:

* `if checksum:` — Python truthiness; an unsupported `hash_alg` logs and
  sets `checksum = None` (verification silently disabled);
* `req = _http_request(url)`; `None` → return `None`;
* `download_path = os.path.join(temp_path(), filename)` with
  `filename = url.split('/')[-1]`;
* `total_length = float(req.info().get('content-length'))` — `TypeError`
  on an absent header;
* `progress.create(...)`; the chunk loop (`dlLoop`); on cancellation
  `progress.close(); req.close(); return False` (the `with` block closes
  the file); on `ZeroDivisionError` the exception propagates (the `with`
  block still closes the file; `progress` and `req` stay open);
* post-loop: checksum comparison (string equality, hence
  case-sensitive), then `Stat(download_path).st_size()` comparison (only
  evaluated when `dl_size` is truthy), then
  `progress.close(); req.close(); return (True, download_path)`. -/
def useCk (checksum : Option String) (hash_alg : String) : Bool :=
  strTruthy checksum && (hash_alg == "sha1" || hash_alg == "md5")

/-- The `else` branch of the algorithm selection: `checksum` truthy but
`hash_alg` unsupported — log and disable verification. -/
def invalidAlg (checksum : Option String) (hash_alg : String) : Bool :=
  strTruthy checksum && !(hash_alg == "sha1" || hash_alg == "md5")

/-- Events of the checksum/algorithm preamble (lines 67-75). -/
def preEvsOf (checksum : Option String) (hash_alg : String) : List Ev :=
  if invalidAlg checksum hash_alg then
    [Ev.logMsg "Invalid hash algorithm specified"]
  else []

/-- `calc_checksum.hexdigest()` of the accumulated bytes, with the
selected algorithm. -/
def digestOf (env : DlEnv) (hash_alg : String) (bytes : List Nat) : String :=
  (if hash_alg == "md5" then env.md5Hex else env.sha1Hex) bytes

/-- `download_path = os.path.join(temp_path(), url.split('/')[-1])`. -/
def dlPath (env : DlEnv) : String :=
  osPathJoin env.tempPath (lastSegment env.url)

def http_download (env : DlEnv) (message checksum : Option String)
    (hash_alg : String) (dl_size : Option Nat) : DlResult :=
  let _ := message
  let preEvs := preEvsOf checksum hash_alg
  match _http_request env.url env.code with
  | (none, t) => ⟨.retNone, .fetchFail, preEvs ++ t, none⟩
  | (some _, t) =>
    match env.contentLength with
    | none => ⟨.raised .typeError, .typeErr, preEvs ++ t, none⟩
    | some L =>
      let t2 := preEvs ++ t ++ [Ev.progressCreate]
      let r := dlLoop L 0 env.chunks env.cancels
      let fileBytes := r.written.flatten
      match r.exit with
      | .cancelled =>
        ⟨.retFalse, .cancelled,
         t2 ++ r.evs ++ [Ev.progressClose, Ev.reqClose, Ev.fileClose],
         some fileBytes⟩
      | .zeroDiv =>
        ⟨.raised .zeroDivisionError, .zeroDiv,
         t2 ++ r.evs ++ [Ev.fileClose], some fileBytes⟩
      | .completed =>
        let t3 := t2 ++ r.evs ++ [Ev.fileClose]
        if useCk checksum hash_alg &&
            (digestOf env hash_alg fileBytes != checksum.getD "") then
          ⟨.retFalse, .checksumFail,
           t3 ++ [Ev.logMsg "Download failed, checksums do not match"],
           some fileBytes⟩
        else if natTruthy dl_size then
          let t4 := t3 ++ [Ev.statSize (dlPath env)]
          if fileBytes.length != dl_size.getD 0 then
            ⟨.retFalse, .sizeFail,
             t4 ++ [Ev.logMsg "Download failed, filesize does not match"],
             some fileBytes⟩
          else
            ⟨.retSuccess (dlPath env), .success,
             t4 ++ [Ev.progressClose, Ev.reqClose], some fileBytes⟩
        else
          ⟨.retSuccess (dlPath env), .success,
           t3 ++ [Ev.progressClose, Ev.reqClose], some fileBytes⟩

/-- The percentage carried by a `progressUpdate` event. -/
def pctOf : Ev → Option Nat
  | .progressUpdate p => some p
  | _ => none

/-- The percentages passed to `progress.update`, in order. -/
def percentsOf (l : List Ev) : List Nat :=
  l.filterMap pctOf

/-- The chunks of the body the stream actually delivers before the loop's
break: the longest prefix of nonempty chunks. -/
def bodyChunks (chunks : List (List Nat)) : List (List Nat) :=
  chunks.takeWhile (fun c => !c.isEmpty)

/-- Total number of body bytes the stream delivers. -/
def totalBody (chunks : List (List Nat)) : Nat :=
  (bodyChunks chunks).flatten.length

/-- The events the chunk loop itself can emit. -/
def isLoopEv : Ev → Bool
  | .reqRead => true
  | .fileWrite _ => true
  | .progressUpdate _ => true
  | _ => false

/-! ## `temp_path` and `update_temp_path` (utils.py lines 10-27)

Kodi's settings store is a key/value list (`get_setting(key, default)` /
`set_setting(key, value)`); `translate_path` resolves a `special://`
prefix and is an arbitrary environment-provided function; the filesystem
is the list of existing directories (`exists` / `mkdirs`).  Emitted
filesystem events are returned alongside the new state. -/

inductive TEv where
  | mkdirs (p : String)
  | move (src dst : String)
  deriving DecidableEq, Repr

structure Kodi where
  settings : List (String × String)
  dirs : List String
  deriving DecidableEq, Repr

def get_setting (settings : List (String × String)) (key dflt : String) :
    String :=
  match settings.find? (fun kv => kv.fst = key) with
  | some kv => kv.snd
  | none => dflt

def set_setting (settings : List (String × String)) (key val : String) :
    List (String × String) :=
  if settings.any (fun kv => kv.fst = key) then
    settings.map (fun kv => if kv.fst = key then (key, val) else kv)
  else settings ++ [(key, val)]

/-- The default of `get_setting('temp_path', ...)` in `temp_path`. -/
def defaultTempSetting : String :=
  "special://masterprofile/addon_data/script.module.inputstreamhelper"

/-- The path `temp_path()` resolves for a given settings store: the
configured (or default) base joined with `'temp'`, translated. -/
def resolvedTemp (translate : String → String)
    (settings : List (String × String)) : String :=
  translate
    (osPathJoin (get_setting settings "temp_path" defaultTempSetting) "temp")

/-- `temp_path()`: translate the configured base joined with `'temp'`,
create the directory when it does not exist, return it. -/
def temp_path (translate : String → String) (k : Kodi) :
    String × Kodi × List TEv :=
  let p := resolvedTemp translate k.settings
  if p ∈ k.dirs then (p, k, [])
  else (p, { k with dirs := k.dirs ++ [p] }, [TEv.mkdirs p])

/-- `shutil.move(src, dst)` where `dst` is an existing directory: `src`
is moved inside `dst`. -/
def moveFs (src dst : String) (k : Kodi) : Kodi :=
  { k with dirs := k.dirs.filter (fun d => d ≠ src) ++
      [osPathJoin dst (lastSegment src)] }

/-- `update_temp_path(new_temp_path)`: remember the old resolved path,
record the new setting, and when the resolved path changed, move the old
directory to the (re-resolved) new one.  Note both the comparison and the
`move` destination call `temp_path()` again. -/
def update_temp_path (translate : String → String) (new_temp_path : String)
    (k : Kodi) : Kodi × List TEv :=
  let (old, k1, e1) := temp_path translate k
  let k2 := { k1 with settings := set_setting k1.settings "temp_path" new_temp_path }
  let (cur, k3, e2) := temp_path translate k2
  if old ≠ cur then
    let (dst, k4, e3) := temp_path translate k3
    (moveFs old dst k4, e1 ++ e2 ++ e3 ++ [TEv.move old dst])
  else (k3, e1 ++ e2)

/-! ## Concrete inputs used by counterexamples and witnesses -/

/-- A destination directory that exists, no symlinks, no files. -/
def fsPlain : ZipFS := ⟨["/dest"], [], []⟩

/-- A filesystem where the path `/dest/a.txt` is a pre-existing symlink. -/
def fsWithLink : ZipFS := ⟨["/dest"], ["/dest/a.txt"], []⟩

/-- A 200-response environment: two-byte body in one chunk, declared
length 1 (smaller than the body), no cancellation. -/
def envShortLen : DlEnv :=
  ⟨"http://host/f.bin", 200, some 1, [[7, 7]], [],
   fun _ => "aa", fun _ => "bb", "/tmp/ish"⟩

/-- A 200-response environment with a correct declared length. -/
def envOk : DlEnv :=
  ⟨"http://host/f.bin", 200, some 2, [[7, 7]], [],
   fun _ => "aa", fun _ => "bb", "/tmp/ish"⟩

/-- Same response, but the first `iscanceled()` poll returns true. -/
def envCancel : DlEnv :=
  ⟨"http://host/f.bin", 200, some 2, [[7, 7]], [true],
   fun _ => "aa", fun _ => "bb", "/tmp/ish"⟩

/-- A 404 response. -/
def env404 : DlEnv :=
  ⟨"http://host/f.bin", 404, some 2, [[7, 7]], [],
   fun _ => "aa", fun _ => "bb", "/tmp/ish"⟩

/-- A 200 response whose `content-length` header is absent. -/
def envNoLen : DlEnv :=
  ⟨"http://host/f.bin", 200, none, [[7, 7]], [],
   fun _ => "aa", fun _ => "bb", "/tmp/ish"⟩

/-- A 200 response declaring `content-length: 0` with a nonempty body. -/
def envZeroLen : DlEnv :=
  ⟨"http://host/f.bin", 200, some 0, [[7, 7]], [],
   fun _ => "aa", fun _ => "bb", "/tmp/ish"⟩

/-- A Kodi state with no settings and an empty filesystem. -/
def kodiEmpty : Kodi := ⟨[], []⟩

/-- First call relying on the default accumulator: extracts `a.txt`. -/
def unzipCall1 : UnzipDefaultRes :=
  unzipDefaultCall [] ["a.txt"] "/dest" none fsPlain

/-- Second call relying on the (now nonempty) default accumulator, with a
filter matching no entry of the archive. -/
def unzipCall2 : UnzipDefaultRes :=
  unzipDefaultCall unzipCall1.acc ["a.txt"] "/dest" (some "b.txt")
    unzipCall1.fs

theorem unzipLoop_safe (destination : String) (filt : Option String) :
    ∀ (names : List String) (fs : ZipFS) (result : List Bool),
    extractsSafe fs (unzipLoop destination filt names fs result).2.1 = true := by
  intro names
  induction names with
  | nil => intro fs result; simp [unzipLoop, extractsSafe]
  | cons filename rest ih =>
    intro fs result
    by_cases hskip : strTruthy filt ∧ filename ≠ filt.getD ""
    · simpa [unzipLoop, hskip] using ih fs result
    · by_cases hlink : osPathJoin destination filename ∈ fs.symlinks
      · simp only [unzipLoop, if_pos hlink, if_neg hskip]
        simp [extractsSafe, applyZEv, List.mem_filter, ih]
      · simp only [unzipLoop, if_neg hlink, if_neg hskip]
        simp [extractsSafe, applyZEv, hlink, ih]

theorem unzipLoop_result (destination : String) (filt : Option String) :
    ∀ (names : List String) (fs : ZipFS) (result : List Bool),
    (unzipLoop destination filt names fs result).2.2 =
      result ++ List.replicate (writtenCount names filt) true := by
  intro names
  induction names with
  | nil => intro fs result; simp [unzipLoop, writtenCount]
  | cons filename rest ih =>
    intro fs result
    by_cases hskip : strTruthy filt ∧ filename ≠ filt.getD ""
    · simp [unzipLoop, hskip, writtenCount, ih]
    · by_cases hlink : osPathJoin destination filename ∈ fs.symlinks
      · simp only [unzipLoop, if_pos hlink, if_neg hskip]
        simp [writtenCount, if_neg hskip, ih, List.replicate_succ,
              List.append_assoc]
      · simp only [unzipLoop, if_neg hlink, if_neg hskip]
        simp [writtenCount, if_neg hskip, ih, List.replicate_succ,
              List.append_assoc]

theorem unzip_result_eq (namelist : List String) (destination : String)
    (file_to_unzip : Option String) (result : List Bool) (fs : ZipFS) :
    (unzip namelist destination file_to_unzip result fs).result =
      result ++ List.replicate (writtenCount namelist file_to_unzip) true := by
  unfold unzip
  by_cases hd : destination ∈ fs.dirs
  · simp only [if_pos hd]
    exact unzipLoop_result destination file_to_unzip namelist fs result
  · simp only [if_neg hd]
    exact unzipLoop_result destination file_to_unzip namelist _ result

theorem unzip_ret_eq (namelist : List String) (destination : String)
    (file_to_unzip : Option String) (result : List Bool) (fs : ZipFS) :
    (unzip namelist destination file_to_unzip result fs).ret =
      !(unzip namelist destination file_to_unzip result fs).result.isEmpty := by
  unfold unzip
  by_cases hd : destination ∈ fs.dirs
  · simp only [if_pos hd]
  · simp only [if_neg hd]

/-- C1: for every extraction call and every entry it is about to write,
if the would-be destination path (destination dir joined with the entry
name) currently exists as a symbolic link, the symlink is removed before
the entry is extracted: replaying the call's event trace from the initial
filesystem, every `extract` event targets a path that is not a symlink at
that moment, so no entry's bytes are ever written through a pre-existing
symlink. -/
theorem C1_unzip_never_extracts_through_symlink
    (namelist : List String) (destination : String)
    (file_to_unzip : Option String) (result : List Bool) (fs : ZipFS) :
    extractsSafe fs (unzip namelist destination file_to_unzip result fs).evs
      = true := by
  unfold unzip
  by_cases hd : destination ∈ fs.dirs
  · simpa [hd] using
      unzipLoop_safe destination file_to_unzip namelist fs result
  · simp only [if_neg hd]
    simpa [extractsSafe] using
      unzipLoop_safe destination file_to_unzip namelist
        (applyZEv fs (.mkdirs destination)) result

/-- C2 counterexample: the default `result=[]` accumulator persists
across calls.  A first call extracts `a.txt`; a second call whose
`file_to_unzip` filter (`b.txt`) matches no entry writes zero entries,
yet returns `True` because the persisted accumulator is nonempty — the
claim says it must return failure. -/
theorem C2_counterexample_second_call_writes_nothing_but_succeeds :
    unzipCall2.written = 0 ∧ unzipCall2.ret = true := by decide

/-- C2 (amended): the success flag of an `unzip` call is true iff the
`result` accumulator is nonempty after the call, i.e. iff the call
received a nonempty accumulator (e.g. the persisted mutable default) or
itself wrote at least one entry.  In particular a call starting from an
empty accumulator succeeds iff it wrote at least one entry. -/
theorem C2_amended_success_iff_accumulator_nonempty
    (namelist : List String) (destination : String)
    (file_to_unzip : Option String) (result : List Bool) (fs : ZipFS) :
    (unzip namelist destination file_to_unzip result fs).result =
      result ++ List.replicate (writtenCount namelist file_to_unzip) true ∧
    ((unzip namelist destination file_to_unzip result fs).ret = true ↔
      result ≠ [] ∨ 0 < writtenCount namelist file_to_unzip) := by
  refine ⟨unzip_result_eq _ _ _ _ _, ?_⟩
  rw [unzip_ret_eq, unzip_result_eq]
  have hbng : ∀ l : List Bool, ((!l.isEmpty) = true ↔ l ≠ []) := by
    intro l; cases l <;> simp
  rw [hbng]
  constructor
  · intro hne
    by_cases hr : result = []
    · rcases Nat.eq_zero_or_pos (writtenCount namelist file_to_unzip) with
        h0 | h0
      · exact absurd (by simp [hr, h0]) hne
      · exact Or.inr h0
    · exact Or.inl hr
  · intro h hnil
    have hlen := congrArg List.length hnil
    simp only [List.length_append, List.length_replicate,
      List.length_nil] at hlen
    rcases h with h | h
    · exact h (List.eq_nil_of_length_eq_zero (by omega))
    · omega

theorem dlLoop_evs_all_loopEv (L : Nat) :
    ∀ (cs : List (List Nat)) (s : Nat) (cancels : List Bool),
    ((dlLoop L s cs cancels).evs).all isLoopEv = true := by
  intro cs
  induction cs with
  | nil => intro s cancels; simp [dlLoop, isLoopEv]
  | cons c rest ih =>
    intro s cancels
    by_cases hc : c.isEmpty
    · simp [dlLoop, hc, isLoopEv]
    · by_cases hL : L = 0
      · simp [dlLoop, hc, hL, isLoopEv]
      · rcases cancels with _ | ⟨b, bs⟩
        · simp [dlLoop, hc, hL, popCancel, isLoopEv, ih]
        · cases b
          · simp [dlLoop, hc, hL, popCancel, isLoopEv, ih]
          · simp [dlLoop, hc, hL, popCancel, isLoopEv]

theorem not_mem_dlLoop_evs {e : Ev} (he : isLoopEv e = false) (L : Nat)
    (cs : List (List Nat)) (s : Nat) (cancels : List Bool) :
    e ∉ (dlLoop L s cs cancels).evs := by
  intro hmem
  have := dlLoop_evs_all_loopEv L cs s cancels
  rw [List.all_eq_true] at this
  have := this e hmem
  rw [he] at this
  exact Bool.false_ne_true this


theorem dlLoop_percents_chain (L : Nat) :
    ∀ (cs : List (List Nat)) (s : Nat) (cancels : List Bool),
    List.Chain' (· ≤ ·) (percentsOf (dlLoop L s cs cancels).evs) ∧
    (∀ p ∈ percentsOf (dlLoop L s cs cancels).evs, s * 100 / L ≤ p) := by
  intro cs
  induction cs with
  | nil => intro s cancels; simp [dlLoop, percentsOf, pctOf]
  | cons c rest ih =>
    intro s cancels
    by_cases hc : c.isEmpty
    · simp [dlLoop, hc, percentsOf, pctOf]
    · by_cases hL : L = 0
      · simp [dlLoop, hc, hL, percentsOf, pctOf]
      · have step : s * 100 / L ≤ (s + c.length) * 100 / L :=
          Nat.div_le_div_right (Nat.mul_le_mul_right _ (Nat.le_add_right _ _))
        have key : ∀ bs : List Bool,
            List.Chain' (· ≤ ·)
              (((s + c.length) * 100 / L) ::
                percentsOf (dlLoop L (s + c.length) rest bs).evs) ∧
            (∀ p ∈ ((s + c.length) * 100 / L) ::
                percentsOf (dlLoop L (s + c.length) rest bs).evs,
              s * 100 / L ≤ p) := by
          intro bs
          obtain ⟨h1, h2⟩ := ih (s + c.length) bs
          constructor
          · refine List.chain'_cons'.mpr ⟨?_, h1⟩
            intro q hq
            exact h2 q (List.mem_of_mem_head? hq)
          · intro p hp
            rcases List.mem_cons.mp hp with rfl | hp
            · exact step
            · exact le_trans step (h2 p hp)
        rcases cancels with _ | ⟨b, bs⟩
        · simpa [dlLoop, hc, hL, popCancel, percentsOf, pctOf] using key []
        · cases b
          · simpa [dlLoop, hc, hL, popCancel, percentsOf, pctOf] using key bs
          · simp [dlLoop, hc, hL, popCancel, percentsOf, pctOf]

theorem dlLoop_percents_le (L : Nat) :
    ∀ (cs : List (List Nat)) (s : Nat) (cancels : List Bool),
    ∀ p ∈ percentsOf (dlLoop L s cs cancels).evs,
      p ≤ (s + totalBody cs) * 100 / L := by
  intro cs
  induction cs with
  | nil => intro s cancels; simp [dlLoop, percentsOf, pctOf]
  | cons c rest ih =>
    intro s cancels
    by_cases hc : c.isEmpty
    · simp [dlLoop, hc, percentsOf, pctOf]
    · have hbody : totalBody (c :: rest) = c.length + totalBody rest := by
        simp [totalBody, bodyChunks, hc]
      by_cases hL : L = 0
      · simp [dlLoop, hc, hL, percentsOf, pctOf]
      · have hmono : (s + c.length) * 100 / L ≤
            (s + totalBody (c :: rest)) * 100 / L := by
          apply Nat.div_le_div_right
          apply Nat.mul_le_mul_right
          omega
        have key : ∀ bs : List Bool,
            ∀ p ∈ ((s + c.length) * 100 / L) ::
                percentsOf (dlLoop L (s + c.length) rest bs).evs,
              p ≤ (s + totalBody (c :: rest)) * 100 / L := by
          intro bs p hp
          rcases List.mem_cons.mp hp with rfl | hp
          · exact hmono
          · have := ih (s + c.length) bs p hp
            calc p ≤ (s + c.length + totalBody rest) * 100 / L := this
              _ = (s + totalBody (c :: rest)) * 100 / L := by
                  rw [hbody]; ring_nf
        rcases cancels with _ | ⟨b, bs⟩
        · simpa [dlLoop, hc, hL, popCancel, percentsOf, pctOf] using key []
        · cases b
          · simpa [dlLoop, hc, hL, popCancel, percentsOf, pctOf] using key bs
          · simp [dlLoop, hc, hL, popCancel, percentsOf, pctOf]

theorem dlLoop_percents_nil_of_L_eq_zero (s : Nat) (cs : List (List Nat))
    (cancels : List Bool) :
    percentsOf (dlLoop 0 s cs cancels).evs = [] := by
  cases cs with
  | nil => simp [dlLoop, percentsOf, pctOf]
  | cons c rest =>
    by_cases hc : c.isEmpty
    · simp [dlLoop, hc, percentsOf, pctOf]
    · simp [dlLoop, hc, percentsOf, pctOf]

theorem _http_request_fail {code : Nat} (h : 400 ≤ code ∧ code < 600)
    (url : String) :
    _http_request url code =
      (none, [Ev.logMsg "Request URL", Ev.request url,
              Ev.logMsg "Response code", Ev.okDialog]) := by
  simp [_http_request, h]

theorem _http_request_ok {code : Nat} (h : ¬(400 ≤ code ∧ code < 600))
    (url : String) :
    _http_request url code =
      (some (), [Ev.logMsg "Request URL", Ev.request url,
                 Ev.logMsg "Response code"]) := by
  simp only [_http_request, if_neg h]

theorem http_download_eq_fetchFail (env : DlEnv) (m ck : Option String)
    (alg : String) (ds : Option Nat) (hf : 400 ≤ env.code ∧ env.code < 600) :
    http_download env m ck alg ds =
      ⟨.retNone, .fetchFail,
       preEvsOf ck alg ++ [Ev.logMsg "Request URL", Ev.request env.url,
         Ev.logMsg "Response code", Ev.okDialog], none⟩ := by
  simp only [http_download, _http_request_fail hf]

theorem http_download_eq_typeErr (env : DlEnv) (m ck : Option String)
    (alg : String) (ds : Option Nat) (hf : ¬(400 ≤ env.code ∧ env.code < 600))
    (hcl : env.contentLength = none) :
    http_download env m ck alg ds =
      ⟨.raised .typeError, .typeErr,
       preEvsOf ck alg ++ [Ev.logMsg "Request URL", Ev.request env.url,
         Ev.logMsg "Response code"], none⟩ := by
  simp only [http_download, _http_request_ok hf, hcl]

theorem http_download_eq_cancelled (env : DlEnv) (m ck : Option String)
    (alg : String) (ds : Option Nat) (L : Nat)
    (hf : ¬(400 ≤ env.code ∧ env.code < 600))
    (hcl : env.contentLength = some L)
    (hex : (dlLoop L 0 env.chunks env.cancels).exit = .cancelled) :
    http_download env m ck alg ds =
      ⟨.retFalse, .cancelled,
       preEvsOf ck alg ++ [Ev.logMsg "Request URL", Ev.request env.url,
         Ev.logMsg "Response code"] ++ [Ev.progressCreate] ++
         (dlLoop L 0 env.chunks env.cancels).evs ++
         [Ev.progressClose, Ev.reqClose, Ev.fileClose],
       some (dlLoop L 0 env.chunks env.cancels).written.flatten⟩ := by
  simp only [http_download, _http_request_ok hf, hcl, hex]

theorem http_download_eq_zeroDiv (env : DlEnv) (m ck : Option String)
    (alg : String) (ds : Option Nat) (L : Nat)
    (hf : ¬(400 ≤ env.code ∧ env.code < 600))
    (hcl : env.contentLength = some L)
    (hex : (dlLoop L 0 env.chunks env.cancels).exit = .zeroDiv) :
    http_download env m ck alg ds =
      ⟨.raised .zeroDivisionError, .zeroDiv,
       preEvsOf ck alg ++ [Ev.logMsg "Request URL", Ev.request env.url,
         Ev.logMsg "Response code"] ++ [Ev.progressCreate] ++
         (dlLoop L 0 env.chunks env.cancels).evs ++ [Ev.fileClose],
       some (dlLoop L 0 env.chunks env.cancels).written.flatten⟩ := by
  simp only [http_download, _http_request_ok hf, hcl, hex]

theorem http_download_eq_checksumFail (env : DlEnv) (m ck : Option String)
    (alg : String) (ds : Option Nat) (L : Nat)
    (hf : ¬(400 ≤ env.code ∧ env.code < 600))
    (hcl : env.contentLength = some L)
    (hex : (dlLoop L 0 env.chunks env.cancels).exit = .completed)
    (hck : (useCk ck alg &&
      (digestOf env alg (dlLoop L 0 env.chunks env.cancels).written.flatten
        != ck.getD "")) = true) :
    http_download env m ck alg ds =
      ⟨.retFalse, .checksumFail,
       preEvsOf ck alg ++ [Ev.logMsg "Request URL", Ev.request env.url,
         Ev.logMsg "Response code"] ++ [Ev.progressCreate] ++
         (dlLoop L 0 env.chunks env.cancels).evs ++ [Ev.fileClose] ++
         [Ev.logMsg "Download failed, checksums do not match"],
       some (dlLoop L 0 env.chunks env.cancels).written.flatten⟩ := by
  simp only [http_download, _http_request_ok hf, hcl, hex, hck, if_true]

theorem http_download_eq_sizeFail (env : DlEnv) (m ck : Option String)
    (alg : String) (ds : Option Nat) (L : Nat)
    (hf : ¬(400 ≤ env.code ∧ env.code < 600))
    (hcl : env.contentLength = some L)
    (hex : (dlLoop L 0 env.chunks env.cancels).exit = .completed)
    (hck : (useCk ck alg &&
      (digestOf env alg (dlLoop L 0 env.chunks env.cancels).written.flatten
        != ck.getD "")) = false)
    (hds : natTruthy ds = true)
    (hsz : ((dlLoop L 0 env.chunks env.cancels).written.flatten.length
        != ds.getD 0) = true) :
    http_download env m ck alg ds =
      ⟨.retFalse, .sizeFail,
       preEvsOf ck alg ++ [Ev.logMsg "Request URL", Ev.request env.url,
         Ev.logMsg "Response code"] ++ [Ev.progressCreate] ++
         (dlLoop L 0 env.chunks env.cancels).evs ++ [Ev.fileClose] ++
         [Ev.statSize (dlPath env)] ++
         [Ev.logMsg "Download failed, filesize does not match"],
       some (dlLoop L 0 env.chunks env.cancels).written.flatten⟩ := by
  simp only [http_download, _http_request_ok hf, hcl, hex, hck, hds, hsz,
    Bool.false_eq_true, if_false, if_true]

theorem http_download_eq_success_stat (env : DlEnv) (m ck : Option String)
    (alg : String) (ds : Option Nat) (L : Nat)
    (hf : ¬(400 ≤ env.code ∧ env.code < 600))
    (hcl : env.contentLength = some L)
    (hex : (dlLoop L 0 env.chunks env.cancels).exit = .completed)
    (hck : (useCk ck alg &&
      (digestOf env alg (dlLoop L 0 env.chunks env.cancels).written.flatten
        != ck.getD "")) = false)
    (hds : natTruthy ds = true)
    (hsz : ((dlLoop L 0 env.chunks env.cancels).written.flatten.length
        != ds.getD 0) = false) :
    http_download env m ck alg ds =
      ⟨.retSuccess (dlPath env), .success,
       preEvsOf ck alg ++ [Ev.logMsg "Request URL", Ev.request env.url,
         Ev.logMsg "Response code"] ++ [Ev.progressCreate] ++
         (dlLoop L 0 env.chunks env.cancels).evs ++ [Ev.fileClose] ++
         [Ev.statSize (dlPath env)] ++ [Ev.progressClose, Ev.reqClose],
       some (dlLoop L 0 env.chunks env.cancels).written.flatten⟩ := by
  simp only [http_download, _http_request_ok hf, hcl, hex, hck, hds, hsz,
    Bool.false_eq_true, if_false, if_true]

theorem http_download_eq_success_nostat (env : DlEnv) (m ck : Option String)
    (alg : String) (ds : Option Nat) (L : Nat)
    (hf : ¬(400 ≤ env.code ∧ env.code < 600))
    (hcl : env.contentLength = some L)
    (hex : (dlLoop L 0 env.chunks env.cancels).exit = .completed)
    (hck : (useCk ck alg &&
      (digestOf env alg (dlLoop L 0 env.chunks env.cancels).written.flatten
        != ck.getD "")) = false)
    (hds : natTruthy ds = false) :
    http_download env m ck alg ds =
      ⟨.retSuccess (dlPath env), .success,
       preEvsOf ck alg ++ [Ev.logMsg "Request URL", Ev.request env.url,
         Ev.logMsg "Response code"] ++ [Ev.progressCreate] ++
         (dlLoop L 0 env.chunks env.cancels).evs ++ [Ev.fileClose] ++
         [Ev.progressClose, Ev.reqClose],
       some (dlLoop L 0 env.chunks env.cancels).written.flatten⟩ := by
  simp only [http_download, _http_request_ok hf, hcl, hex, hck, hds,
    Bool.false_eq_true, if_false]

/-- Characterization used by several claims: the Python return value of
`http_download` determines and is determined by the path taken, except
that `False` is shared by cancellation, checksum failure and size
failure. -/
theorem http_download_ret_exit (env : DlEnv) (m ck : Option String)
    (alg : String) (ds : Option Nat) :
    ((http_download env m ck alg ds).ret = .retFalse ↔
      ((http_download env m ck alg ds).exit = .cancelled ∨
       (http_download env m ck alg ds).exit = .checksumFail ∨
       (http_download env m ck alg ds).exit = .sizeFail)) ∧
    ((http_download env m ck alg ds).ret = .retNone ↔
      (http_download env m ck alg ds).exit = .fetchFail) ∧
    (∀ p, (http_download env m ck alg ds).ret = .retSuccess p ↔
      ((http_download env m ck alg ds).exit = .success ∧
        p = dlPath env)) := by
  by_cases hf : 400 ≤ env.code ∧ env.code < 600
  · rw [http_download_eq_fetchFail env m ck alg ds hf]; simp
  · cases hcl : env.contentLength with
    | none => rw [http_download_eq_typeErr env m ck alg ds hf hcl]; simp
    | some L =>
      cases hex : (dlLoop L 0 env.chunks env.cancels).exit with
      | cancelled =>
        rw [http_download_eq_cancelled env m ck alg ds L hf hcl hex]; simp
      | zeroDiv =>
        rw [http_download_eq_zeroDiv env m ck alg ds L hf hcl hex]; simp
      | completed =>
        cases hck : (useCk ck alg && (digestOf env alg
            (dlLoop L 0 env.chunks env.cancels).written.flatten
              != ck.getD "")) with
        | true =>
          rw [http_download_eq_checksumFail env m ck alg ds L hf hcl hex hck]
          simp
        | false =>
          cases hds : natTruthy ds with
          | false =>
            rw [http_download_eq_success_nostat env m ck alg ds L hf hcl hex
              hck hds]
            simp [eq_comm]
          | true =>
            cases hsz : ((dlLoop L 0 env.chunks env.cancels).written.flatten.length != ds.getD 0) with
            | true =>
              rw [http_download_eq_sizeFail env m ck alg ds L hf hcl hex hck
                hds hsz]
              simp
            | false =>
              rw [http_download_eq_success_stat env m ck alg ds L hf hcl hex
                hck hds hsz]
              simp [eq_comm]

/-- C2 amended, instantiated: a call with a nonempty accumulator and a
filter matching nothing still returns `True`. -/
theorem not_mem_preEvsOf {e : Ev} {ck : Option String} {alg : String}
    (he : e ≠ Ev.logMsg "Invalid hash algorithm specified") :
    e ∉ preEvsOf ck alg := by
  unfold preEvsOf; split <;> simp [he]

theorem percentsOf_append (a b : List Ev) :
    percentsOf (a ++ b) = percentsOf a ++ percentsOf b := by
  simp [percentsOf]

theorem percentsOf_preEvsOf (ck : Option String) (alg : String) :
    percentsOf (preEvsOf ck alg) = [] := by
  unfold preEvsOf; split <;> simp [percentsOf, pctOf]

/-- Any percentage the loop reports is at most 100 when the declared
length is at least the number of bytes the stream delivers. -/
theorem percents_loop_bound (env : DlEnv) (L : Nat)
    (htot : totalBody env.chunks ≤ L) (p : Nat)
    (hp : p ∈ percentsOf (dlLoop L 0 env.chunks env.cancels).evs) :
    p ≤ 100 := by
  rcases Nat.eq_zero_or_pos L with h0 | h0
  · subst h0
    rw [dlLoop_percents_nil_of_L_eq_zero] at hp
    simp at hp
  · have hle := dlLoop_percents_le L env.chunks 0 env.cancels p hp
    have hmono : (0 + totalBody env.chunks) * 100 / L ≤ L * 100 / L := by
      apply Nat.div_le_div_right
      apply Nat.mul_le_mul_right
      omega
    have hL100 : L * 100 / L = 100 := by
      rw [Nat.mul_comm]
      exact Nat.mul_div_cancel 100 h0
    omega

/-- On the three loop-reaching paths, the percentages reported by
`http_download` are exactly those of the chunk loop. -/
theorem percents_trace_eq (env : DlEnv) (m ck : Option String)
    (alg : String) (ds : Option Nat) (L : Nat)
    (hf : ¬(400 ≤ env.code ∧ env.code < 600))
    (hcl : env.contentLength = some L) :
    percentsOf (http_download env m ck alg ds).trace =
      percentsOf (dlLoop L 0 env.chunks env.cancels).evs := by
  cases hex : (dlLoop L 0 env.chunks env.cancels).exit with
  | cancelled =>
    rw [http_download_eq_cancelled env m ck alg ds L hf hcl hex]
    simp only [percentsOf_append, percentsOf_preEvsOf]
    simp [percentsOf, pctOf]
  | zeroDiv =>
    rw [http_download_eq_zeroDiv env m ck alg ds L hf hcl hex]
    simp only [percentsOf_append, percentsOf_preEvsOf]
    simp [percentsOf, pctOf]
  | completed =>
    cases hck : (useCk ck alg && (digestOf env alg
        (dlLoop L 0 env.chunks env.cancels).written.flatten
          != ck.getD "")) with
    | true =>
      rw [http_download_eq_checksumFail env m ck alg ds L hf hcl hex hck]
      simp only [percentsOf_append, percentsOf_preEvsOf]
      simp [percentsOf, pctOf]
    | false =>
      cases hds : natTruthy ds with
      | false =>
        rw [http_download_eq_success_nostat env m ck alg ds L hf hcl hex
          hck hds]
        simp only [percentsOf_append, percentsOf_preEvsOf]
        simp [percentsOf, pctOf]
      | true =>
        cases hsz : ((dlLoop L 0 env.chunks env.cancels).written.flatten.length != ds.getD 0) with
        | true =>
          rw [http_download_eq_sizeFail env m ck alg ds L hf hcl hex hck
            hds hsz]
          simp only [percentsOf_append, percentsOf_preEvsOf]
          simp [percentsOf, pctOf]
        | false =>
          rw [http_download_eq_success_stat env m ck alg ds L hf hcl hex
            hck hds hsz]
          simp only [percentsOf_append, percentsOf_preEvsOf]
          simp [percentsOf, pctOf]

/-- On the two paths that never reach the loop, nothing is reported. -/
theorem percents_trace_nil (env : DlEnv) (m ck : Option String)
    (alg : String) (ds : Option Nat)
    (h : (400 ≤ env.code ∧ env.code < 600) ∨ env.contentLength = none) :
    percentsOf (http_download env m ck alg ds).trace = [] := by
  rcases h with hf | hcl
  · rw [http_download_eq_fetchFail env m ck alg ds hf]
    simp only [percentsOf_append, percentsOf_preEvsOf]
    simp [percentsOf, pctOf]
  · by_cases hf : 400 ≤ env.code ∧ env.code < 600
    · rw [http_download_eq_fetchFail env m ck alg ds hf]
      simp only [percentsOf_append, percentsOf_preEvsOf]
      simp [percentsOf, pctOf]
    · rw [http_download_eq_typeErr env m ck alg ds hf hcl]
      simp only [percentsOf_append, percentsOf_preEvsOf]
      simp [percentsOf, pctOf]

/-- When the first `true` cancellation poll is the `i`-th one and the
stream still has a nonempty chunk at each of the first `i + 1` reads, the
loop exits cancelled having read and written exactly the first `i + 1`
chunks. -/
theorem dlLoop_cancelled_spec (L : Nat) (hL : L ≠ 0) :
    ∀ (i : Nat) (cs : List (List Nat)) (s : Nat) (rest : List Bool),
    (∀ j, j ≤ i → cs.getD j [] ≠ []) → i < cs.length →
    (dlLoop L s cs (List.replicate i false ++ true :: rest)).written =
      cs.take (i + 1) ∧
    (dlLoop L s cs (List.replicate i false ++ true :: rest)).exit =
      .cancelled ∧
    (dlLoop L s cs
      (List.replicate i false ++ true :: rest)).evs.count Ev.reqRead =
      i + 1 := by
  intro i
  induction i with
  | zero =>
    intro cs s rest hne hlen
    cases cs with
    | nil => simp at hlen
    | cons c cs' =>
      have hc : c ≠ [] := by simpa using hne 0 (Nat.le_refl 0)
      have hce : c.isEmpty = false := by
        cases c with
        | nil => exact absurd rfl hc
        | cons a t => rfl
      simp [dlLoop, hce, hL, popCancel, List.count_cons]
  | succ i ih =>
    intro cs s rest hne hlen
    cases cs with
    | nil => simp at hlen
    | cons c cs' =>
      have hc : c ≠ [] := by simpa using hne 0 (Nat.zero_le _)
      have hce : c.isEmpty = false := by
        cases c with
        | nil => exact absurd rfl hc
        | cons a t => rfl
      have hne' : ∀ j, j ≤ i → cs'.getD j [] ≠ [] := by
        intro j hj
        simpa using hne (j + 1) (by omega)
      have hlen' : i < cs'.length := by
        simp at hlen
        omega
      obtain ⟨h1, h2, h3⟩ := ih cs' (s + c.length) rest hne' hlen'
      simp [dlLoop, hce, hL, popCancel, List.replicate_succ, h1, h2, h3,
        List.count_cons]

theorem C2_amended_witness :
    (unzip ["a.txt"] "/dest" (some "b.txt") [true] fsPlain).result =
      [true] ++ List.replicate (writtenCount ["a.txt"] (some "b.txt")) true ∧
    ((unzip ["a.txt"] "/dest" (some "b.txt") [true] fsPlain).ret = true ↔
      [true] ≠ ([] : List Bool) ∨
        0 < writtenCount ["a.txt"] (some "b.txt")) :=
  C2_amended_success_iff_accumulator_nonempty ["a.txt"] "/dest"
    (some "b.txt") [true] fsPlain

/-- C3 counterexample: with a declared content length of 1 and a single
two-byte chunk, the percentage passed to `progress.update` is 200 — the
computation `int(size * 100 / total_length)` has no clamp, so the claim
that the percentage never exceeds 100 fails on this input. -/
theorem C3_counterexample_percent_200 :
    percentsOf (http_download envShortLen none none "sha1" none).trace =
      [200] ∧
    ¬ (∀ p ∈ percentsOf
        (http_download envShortLen none none "sha1" none).trace,
      p ≤ 100) := by
  constructor
  · decide
  · decide

/-- C3 (amended): the reported percentages are monotonically
non-decreasing across chunks; they never exceed 100 provided the declared
content length is accurate (at least the number of bytes the stream
delivers) — without that proviso the percentage can exceed 100, as the
counterexample shows, since the code has no clamp. -/
theorem C3_amended_percents_monotone_and_bounded (env : DlEnv)
    (m ck : Option String) (alg : String) (ds : Option Nat) :
    List.Chain' (· ≤ ·)
      (percentsOf (http_download env m ck alg ds).trace) ∧
    (∀ L, env.contentLength = some L → totalBody env.chunks ≤ L →
      ∀ p ∈ percentsOf (http_download env m ck alg ds).trace, p ≤ 100) := by
  by_cases hf : 400 ≤ env.code ∧ env.code < 600
  · rw [percents_trace_nil env m ck alg ds (Or.inl hf)]
    simp
  · cases hcl : env.contentLength with
    | none =>
      rw [percents_trace_nil env m ck alg ds (Or.inr hcl)]
      simp
    | some L =>
      rw [percents_trace_eq env m ck alg ds L hf hcl]
      refine ⟨(dlLoop_percents_chain L env.chunks 0 env.cancels).1, ?_⟩
      intro L' hL' htot p hp
      have hLL : L = L' := Option.some.inj hL'
      subst hLL
      exact percents_loop_bound env L htot p hp

/-- C3 amended, instantiated on an accurate content length: monotone and
bounded by 100. -/
theorem C3_amended_witness :
    List.Chain' (· ≤ ·)
      (percentsOf (http_download envOk none none "sha1" none).trace) ∧
    (∀ p ∈ percentsOf (http_download envOk none none "sha1" none).trace,
      p ≤ 100) :=
  ⟨(C3_amended_percents_monotone_and_bounded envOk none none "sha1" none).1,
   (C3_amended_percents_monotone_and_bounded envOk none none "sha1" none).2
     2 rfl (by decide)⟩

/-- C4 counterexample: on the checksum-mismatch exit the destination file
is closed by the `with` block, but neither `progress.close()` nor
`req.close()` is ever called — the network stream and the progress dialog
are not released on that exit path, contrary to the claim. -/
theorem C4_counterexample_checksum_failure_leaks :
    (http_download envOk none (some "deadbeef") "sha1" none).exit =
      .checksumFail ∧
    Ev.progressClose ∉
      (http_download envOk none (some "deadbeef") "sha1" none).trace ∧
    Ev.reqClose ∉
      (http_download envOk none (some "deadbeef") "sha1" none).trace := by
  refine ⟨by decide, by decide, by decide⟩

/-- C4 (amended): on the success and cancellation exits the progress
dialog, the network stream and the destination file handle are all
released; on the checksum-mismatch and size-mismatch exits only the
destination file handle is closed — the network stream and the progress
dialog are leaked. -/
theorem C4_amended_releases_by_exit_path (env : DlEnv)
    (m ck : Option String) (alg : String) (ds : Option Nat) :
    (((http_download env m ck alg ds).exit = .success ∨
      (http_download env m ck alg ds).exit = .cancelled) →
      Ev.progressClose ∈ (http_download env m ck alg ds).trace ∧
      Ev.reqClose ∈ (http_download env m ck alg ds).trace ∧
      Ev.fileClose ∈ (http_download env m ck alg ds).trace) ∧
    (((http_download env m ck alg ds).exit = .checksumFail ∨
      (http_download env m ck alg ds).exit = .sizeFail) →
      Ev.fileClose ∈ (http_download env m ck alg ds).trace ∧
      Ev.progressClose ∉ (http_download env m ck alg ds).trace ∧
      Ev.reqClose ∉ (http_download env m ck alg ds).trace) := by
  by_cases hf : 400 ≤ env.code ∧ env.code < 600
  · rw [http_download_eq_fetchFail env m ck alg ds hf]
    exact ⟨fun h => by rcases h with h | h <;> simp at h,
           fun h => by rcases h with h | h <;> simp at h⟩
  · cases hcl : env.contentLength with
    | none =>
      rw [http_download_eq_typeErr env m ck alg ds hf hcl]
      exact ⟨fun h => by rcases h with h | h <;> simp at h,
             fun h => by rcases h with h | h <;> simp at h⟩
    | some L =>
      have hpc : Ev.progressClose ∉ preEvsOf ck alg :=
        not_mem_preEvsOf (by simp)
      have hrc : Ev.reqClose ∉ preEvsOf ck alg :=
        not_mem_preEvsOf (by simp)
      have hlpc : Ev.progressClose ∉ (dlLoop L 0 env.chunks env.cancels).evs :=
        @not_mem_dlLoop_evs _ (by rfl) L env.chunks 0 env.cancels
      have hlrc : Ev.reqClose ∉ (dlLoop L 0 env.chunks env.cancels).evs :=
        @not_mem_dlLoop_evs _ (by rfl) L env.chunks 0 env.cancels
      cases hex : (dlLoop L 0 env.chunks env.cancels).exit with
      | cancelled =>
        rw [http_download_eq_cancelled env m ck alg ds L hf hcl hex]
        exact ⟨fun _ => by simp,
               fun h => by rcases h with h | h <;> simp at h⟩
      | zeroDiv =>
        rw [http_download_eq_zeroDiv env m ck alg ds L hf hcl hex]
        exact ⟨fun h => by rcases h with h | h <;> simp at h,
               fun h => by rcases h with h | h <;> simp at h⟩
      | completed =>
        cases hck : (useCk ck alg && (digestOf env alg
            (dlLoop L 0 env.chunks env.cancels).written.flatten
              != ck.getD "")) with
        | true =>
          rw [http_download_eq_checksumFail env m ck alg ds L hf hcl hex hck]
          refine ⟨fun h => by rcases h with h | h <;> simp at h,
                  fun _ => ⟨by simp, ?_, ?_⟩⟩
          · simp [List.mem_append, hpc, hlpc]
          · simp [List.mem_append, hrc, hlrc]
        | false =>
          cases hds : natTruthy ds with
          | false =>
            rw [http_download_eq_success_nostat env m ck alg ds L hf hcl
              hex hck hds]
            exact ⟨fun _ => by simp,
                   fun h => by rcases h with h | h <;> simp at h⟩
          | true =>
            cases hsz : ((dlLoop L 0 env.chunks env.cancels).written.flatten.length != ds.getD 0) with
            | true =>
              rw [http_download_eq_sizeFail env m ck alg ds L hf hcl hex
                hck hds hsz]
              refine ⟨fun h => by rcases h with h | h <;> simp at h,
                      fun _ => ⟨by simp, ?_, ?_⟩⟩
              · simp [List.mem_append, hpc, hlpc]
              · simp [List.mem_append, hrc, hlrc]
            | false =>
              rw [http_download_eq_success_stat env m ck alg ds L hf hcl
                hex hck hds hsz]
              exact ⟨fun _ => by simp,
                     fun h => by rcases h with h | h <;> simp at h⟩

/-- C4 amended, instantiated: a successful download releases dialog,
stream and file; a checksum-mismatch download closes the file only. -/
theorem C4_amended_witness :
    (Ev.progressClose ∈ (http_download envOk none none "sha1" none).trace ∧
     Ev.reqClose ∈ (http_download envOk none none "sha1" none).trace ∧
     Ev.fileClose ∈ (http_download envOk none none "sha1" none).trace) ∧
    (Ev.fileClose ∈
      (http_download envOk none (some "deadbeef") "sha1" none).trace ∧
     Ev.progressClose ∉
      (http_download envOk none (some "deadbeef") "sha1" none).trace ∧
     Ev.reqClose ∉
      (http_download envOk none (some "deadbeef") "sha1" none).trace) :=
  ⟨(C4_amended_releases_by_exit_path envOk none none "sha1" none).1
     (Or.inl (by decide)),
   (C4_amended_releases_by_exit_path envOk none (some "deadbeef") "sha1"
     none).2 (Or.inl (by decide))⟩

/-- C5 counterexample: a cancelled download and a checksum-mismatch
download both return the same Python value `False`, so a caller cannot
tell user cancellation apart from an integrity failure from the returned
value alone. -/
theorem C5_counterexample_false_is_ambiguous :
    (http_download envCancel none none "sha1" none).ret =
      (http_download envOk none (some "deadbeef") "sha1" none).ret ∧
    (http_download envCancel none none "sha1" none).exit = .cancelled ∧
    (http_download envOk none (some "deadbeef") "sha1" none).exit =
      .checksumFail := by
  refine ⟨by decide, by decide, by decide⟩

/-- C5 (amended): a call yields exactly one of `None` (fetch failure),
`False`, `(True, download_path)` or an uncaught exception; `None` and the
success value identify their paths, but `False` is shared by
cancellation, checksum failure and size failure, which are therefore not
mutually distinguishable from the returned value. -/
theorem C5_amended_return_values (env : DlEnv) (m ck : Option String)
    (alg : String) (ds : Option Nat) :
    ((http_download env m ck alg ds).ret = .retFalse ↔
      ((http_download env m ck alg ds).exit = .cancelled ∨
       (http_download env m ck alg ds).exit = .checksumFail ∨
       (http_download env m ck alg ds).exit = .sizeFail)) ∧
    ((http_download env m ck alg ds).ret = .retNone ↔
      (http_download env m ck alg ds).exit = .fetchFail) ∧
    (∀ p, (http_download env m ck alg ds).ret = .retSuccess p ↔
      ((http_download env m ck alg ds).exit = .success ∧
        p = dlPath env)) :=
  http_download_ret_exit env m ck alg ds

/-- C5 amended, instantiated: a cancelled run returns `False` and is on
the cancelled path; `None` is reserved for fetch failures. -/
theorem C5_amended_witness :
    ((http_download envCancel none none "sha1" none).ret = .retFalse ↔
      ((http_download envCancel none none "sha1" none).exit = .cancelled ∨
       (http_download envCancel none none "sha1" none).exit =
         .checksumFail ∨
       (http_download envCancel none none "sha1" none).exit = .sizeFail)) ∧
    ((http_download envCancel none none "sha1" none).ret = .retNone ↔
      (http_download envCancel none none "sha1" none).exit = .fetchFail) :=
  ⟨(C5_amended_return_values envCancel none none "sha1" none).1,
   (C5_amended_return_values envCancel none none "sha1" none).2.1⟩

/-- C6 counterexample: when the server omits the `content-length` header,
`float(req.info().get('content-length'))` is `float(None)` and the call
dies with a `TypeError` instead of completing with progress skipped. -/
theorem C6_counterexample_missing_length_raises :
    (http_download envNoLen none none "sha1" none).ret =
      .raised .typeError := by
  decide

/-- C6 (amended): a download whose response omits the `content-length`
header raises `TypeError` before the transfer starts; one that declares
`content-length: 0` and delivers a nonempty chunk raises
`ZeroDivisionError` at the first percent computation — the download does
not complete and the percentage computation is not skipped. -/
theorem C6_amended_absent_or_zero_length_crashes (env : DlEnv)
    (m ck : Option String) (alg : String) (ds : Option Nat)
    (hf : ¬(400 ≤ env.code ∧ env.code < 600)) :
    (env.contentLength = none →
      (http_download env m ck alg ds).ret = .raised .typeError) ∧
    (∀ c cs, env.contentLength = some 0 → env.chunks = c :: cs → c ≠ [] →
      (http_download env m ck alg ds).ret = .raised .zeroDivisionError) := by
  constructor
  · intro hcl
    rw [http_download_eq_typeErr env m ck alg ds hf hcl]
  · intro c cs h0 hch hc
    have hce : c.isEmpty = false := by
      cases c with
      | nil => exact absurd rfl hc
      | cons a t => rfl
    have hex : (dlLoop 0 0 env.chunks env.cancels).exit = .zeroDiv := by
      rw [hch]
      simp [dlLoop, hce]
    rw [http_download_eq_zeroDiv env m ck alg ds 0 hf h0 hex]

/-- C6 amended, instantiated: an absent header raises `TypeError`; a zero
declared length with a nonempty body raises `ZeroDivisionError`. -/
theorem C6_amended_witness :
    (http_download envNoLen none none "sha1" none).ret =
      .raised .typeError ∧
    (http_download envZeroLen none none "sha1" none).ret =
      .raised .zeroDivisionError :=
  ⟨(C6_amended_absent_or_zero_length_crashes envNoLen none none "sha1" none
      (by decide)).1 rfl,
   (C6_amended_absent_or_zero_length_crashes envZeroLen none none "sha1"
      none (by decide)).2 [7, 7] [] rfl rfl (by decide)⟩

/-- C7: a response status code in [400, 600) makes `_http_request` show
the localized failure dialog and return `None`; `http_get` and
`http_download` then observe only the absent stream and themselves return
`None`, and each issues exactly one request (no retry). -/
theorem C7_http_error_is_terminal (env : DlEnv) (m ck : Option String)
    (alg : String) (ds : Option Nat)
    (hf : 400 ≤ env.code ∧ env.code < 600) :
    (_http_request env.url env.code).1 = none ∧
    Ev.okDialog ∈ (_http_request env.url env.code).2 ∧
    (http_get env).1 = none ∧
    (http_download env m ck alg ds).ret = .retNone ∧
    (http_get env).2.count (Ev.request env.url) = 1 ∧
    (http_download env m ck alg ds).trace.count (Ev.request env.url) = 1 := by
  have hreq := _http_request_fail hf env.url
  have hnp : Ev.request env.url ∉ preEvsOf ck alg :=
    not_mem_preEvsOf (by simp)
  refine ⟨by rw [hreq], by rw [hreq]; simp, ?_, ?_, ?_, ?_⟩
  · simp [http_get, hreq]
  · rw [http_download_eq_fetchFail env m ck alg ds hf]
  · simp [http_get, hreq, List.count_cons]
  · rw [http_download_eq_fetchFail env m ck alg ds hf]
    simp [List.count_append, List.count_cons,
      List.count_eq_zero_of_not_mem hnp]

/-- C7, instantiated at a 404 response. -/
theorem C7_witness :
    (_http_request env404.url env404.code).1 = none ∧
    Ev.okDialog ∈ (_http_request env404.url env404.code).2 ∧
    (http_get env404).1 = none ∧
    (http_download env404 none none "sha1" none).ret = .retNone ∧
    (http_get env404).2.count (Ev.request env404.url) = 1 ∧
    (http_download env404 none none "sha1" none).trace.count
      (Ev.request env404.url) = 1 :=
  C7_http_error_is_terminal env404 none none "sha1" none (by decide)

/-- C8: after the chunk loop completes, validation runs in order — first,
if checksum verification is active, the digest is compared (string
equality, hence case-sensitive) and a mismatch yields the checksum
failure without ever consulting the file size; only then, if `dl_size` is
truthy, the on-disk size is compared and a mismatch yields the size
failure; when both checks pass the call returns `(True, download_path)`. -/
theorem C8_validation_checksum_then_size (env : DlEnv)
    (m ck : Option String) (alg : String) (ds : Option Nat) (L : Nat)
    (hf : ¬(400 ≤ env.code ∧ env.code < 600))
    (hcl : env.contentLength = some L)
    (hex : (dlLoop L 0 env.chunks env.cancels).exit = .completed) :
    ((useCk ck alg && (digestOf env alg
        (dlLoop L 0 env.chunks env.cancels).written.flatten
          != ck.getD "")) = true →
      (http_download env m ck alg ds).exit = .checksumFail ∧
      (http_download env m ck alg ds).ret = .retFalse ∧
      ∀ q, Ev.statSize q ∉ (http_download env m ck alg ds).trace) ∧
    ((useCk ck alg && (digestOf env alg
        (dlLoop L 0 env.chunks env.cancels).written.flatten
          != ck.getD "")) = false →
      natTruthy ds = true →
      ((dlLoop L 0 env.chunks env.cancels).written.flatten.length
          != ds.getD 0) = true →
      (http_download env m ck alg ds).exit = .sizeFail ∧
      (http_download env m ck alg ds).ret = .retFalse) ∧
    ((useCk ck alg && (digestOf env alg
        (dlLoop L 0 env.chunks env.cancels).written.flatten
          != ck.getD "")) = false →
      (natTruthy ds = true →
        ((dlLoop L 0 env.chunks env.cancels).written.flatten.length
            != ds.getD 0) = false) →
      (http_download env m ck alg ds).ret = .retSuccess (dlPath env) ∧
      (http_download env m ck alg ds).exit = .success) := by
  refine ⟨fun hck => ?_, fun hck hds hsz => ?_, fun hck hsz => ?_⟩
  · rw [http_download_eq_checksumFail env m ck alg ds L hf hcl hex hck]
    refine ⟨rfl, rfl, fun q => ?_⟩
    have h1 : Ev.statSize q ∉ preEvsOf ck alg := not_mem_preEvsOf (by simp)
    have h2 : Ev.statSize q ∉ (dlLoop L 0 env.chunks env.cancels).evs :=
      @not_mem_dlLoop_evs _ (by rfl) L env.chunks 0 env.cancels
    simp [List.mem_append, h1, h2]
  · rw [http_download_eq_sizeFail env m ck alg ds L hf hcl hex hck hds hsz]
    exact ⟨rfl, rfl⟩
  · cases hds : natTruthy ds with
    | false =>
      rw [http_download_eq_success_nostat env m ck alg ds L hf hcl hex hck
        hds]
      exact ⟨rfl, rfl⟩
    | true =>
      rw [http_download_eq_success_stat env m ck alg ds L hf hcl hex hck
        hds (hsz hds)]
      exact ⟨rfl, rfl⟩

/-- C8, instantiated: a checksum mismatch on a completed transfer returns
`False` via the checksum-failure path. -/
theorem C8_witness :
    (http_download envOk none (some "deadbeef") "sha1" none).exit =
      .checksumFail ∧
    (http_download envOk none (some "deadbeef") "sha1" none).ret =
      .retFalse := by
  have h := C8_validation_checksum_then_size envOk none (some "deadbeef")
    "sha1" none 2 (by decide) rfl (by decide)
  exact ⟨(h.1 (by decide)).1, (h.1 (by decide)).2.1⟩

/-- C9: when the first `true` cancellation poll is the one after chunk
`i` (zero-based) and the stream still has nonempty chunks up to that
point, the call exits cancelled, having performed exactly `i + 1` stream
reads and written exactly the first `i + 1` chunks; the partially written
file is left in place (its bytes are exactly those chunks). -/
theorem C9_cancellation_stops_reads_and_writes (env : DlEnv)
    (m ck : Option String) (alg : String) (ds : Option Nat) (L i : Nat)
    (rest : List Bool)
    (hf : ¬(400 ≤ env.code ∧ env.code < 600))
    (hcl : env.contentLength = some L) (hL : L ≠ 0)
    (hcan : env.cancels = List.replicate i false ++ true :: rest)
    (hne : ∀ j, j ≤ i → env.chunks.getD j [] ≠ [])
    (hlen : i < env.chunks.length) :
    (http_download env m ck alg ds).exit = .cancelled ∧
    (http_download env m ck alg ds).ret = .retFalse ∧
    (http_download env m ck alg ds).fileBytes =
      some ((env.chunks.take (i + 1)).flatten) ∧
    (http_download env m ck alg ds).trace.count Ev.reqRead = i + 1 := by
  obtain ⟨h1, h2, h3⟩ :=
    dlLoop_cancelled_spec L hL i env.chunks 0 rest hne hlen
  rw [← hcan] at h1 h2 h3
  rw [http_download_eq_cancelled env m ck alg ds L hf hcl h2]
  have hnr : Ev.reqRead ∉ preEvsOf ck alg := not_mem_preEvsOf (by simp)
  refine ⟨rfl, rfl, by simp [h1], ?_⟩
  simp [List.count_append, List.count_cons, h3,
    List.count_eq_zero_of_not_mem hnr]

/-- C9, instantiated: the very first poll returning true stops the
transfer after one read and one written chunk. -/
theorem C9_witness :
    (http_download envCancel none none "sha1" none).exit = .cancelled ∧
    (http_download envCancel none none "sha1" none).ret = .retFalse ∧
    (http_download envCancel none none "sha1" none).fileBytes =
      some ((envCancel.chunks.take 1).flatten) ∧
    (http_download envCancel none none "sha1" none).trace.count
      Ev.reqRead = 1 :=
  C9_cancellation_stops_reads_and_writes envCancel none none "sha1" none
    2 0 [] (by decide) rfl (by decide) rfl
    (fun j hj => by
      have hj0 : j = 0 := Nat.le_zero.mp hj
      subst hj0
      decide)
    (by decide)

theorem get_set_setting (key v d : String) :
    ∀ st : List (String × String),
    get_setting (set_setting st key v) key d = v := by
  intro st
  induction st with
  | nil => simp [set_setting, get_setting, List.find?]
  | cons kv rest ih =>
    by_cases hk : kv.fst = key
    · have hany : (kv :: rest).any (fun x => x.fst = key) = true := by
        simp [hk]
      simp [set_setting, hany, hk, get_setting, List.find?]
    · by_cases hany : rest.any (fun x => x.fst = key) = true
      · have hany' : (kv :: rest).any (fun x => x.fst = key) = true := by
          simp [hany]
        have hset : set_setting rest key v =
            rest.map (fun x => if x.fst = key then (key, v) else x) := by
          simp [set_setting, hany]
        have ih' := ih
        rw [hset] at ih'
        simp [set_setting, hany', hk, get_setting, List.find?] at ih' ⊢
        exact ih'
      · have hany' : (kv :: rest).any (fun x => x.fst = key) = false := by
          have h2 : rest.any (fun x => x.fst = key) = false :=
            Bool.eq_false_iff.mpr hany
          simp [List.any_cons, hk, h2]
        have hset : set_setting rest key v = rest ++ [(key, v)] := by
          simp [set_setting, hany]
        have ih' := ih
        rw [hset] at ih'
        simp [set_setting, hany', hk, get_setting, List.find?] at ih' ⊢
        exact ih'

theorem resolvedTemp_set (translate : String → String)
    (settings : List (String × String)) (new_temp_path : String) :
    resolvedTemp translate (set_setting settings "temp_path" new_temp_path) =
      translate (osPathJoin new_temp_path "temp") := by
  simp [resolvedTemp, get_set_setting]

/-- When the new setting resolves to the same path, `update_temp_path`
only records the setting and (at most) creates the temp directory. -/
theorem update_temp_path_same (translate : String → String)
    (new_temp_path : String) (k : Kodi)
    (heq : resolvedTemp translate k.settings =
      translate (osPathJoin new_temp_path "temp")) :
    update_temp_path translate new_temp_path k =
      if resolvedTemp translate k.settings ∈ k.dirs then
        ({ k with
            settings := set_setting k.settings "temp_path" new_temp_path },
         [])
      else
        ({ k with
            settings := set_setting k.settings "temp_path" new_temp_path,
            dirs := k.dirs ++ [resolvedTemp translate k.settings] },
         [TEv.mkdirs (resolvedTemp translate k.settings)]) := by
  by_cases h1 : resolvedTemp translate k.settings ∈ k.dirs
  · rw [if_pos h1]
    have h2 : resolvedTemp translate
        (set_setting k.settings "temp_path" new_temp_path) ∈ k.dirs := by
      rw [resolvedTemp_set, ← heq]; exact h1
    simp [update_temp_path, temp_path, resolvedTemp_set, h1, h2, ← heq]
  · rw [if_neg h1]
    have h2 : resolvedTemp translate
        (set_setting k.settings "temp_path" new_temp_path) ∈
          k.dirs ++ [resolvedTemp translate k.settings] := by
      rw [resolvedTemp_set, ← heq]; simp
    simp [update_temp_path, temp_path, resolvedTemp_set, h1, h2, ← heq]

/-- When the resolved path changes, `update_temp_path` records the
setting and emits a `move` of the old resolved directory to the new one. -/
theorem update_temp_path_move (translate : String → String)
    (new_temp_path : String) (k : Kodi)
    (hne : resolvedTemp translate k.settings ≠
      translate (osPathJoin new_temp_path "temp")) :
    (update_temp_path translate new_temp_path k).1.settings =
      set_setting k.settings "temp_path" new_temp_path ∧
    TEv.move (resolvedTemp translate k.settings)
        (translate (osPathJoin new_temp_path "temp")) ∈
      (update_temp_path translate new_temp_path k).2 := by
  by_cases h1 : resolvedTemp translate k.settings ∈ k.dirs
  · by_cases h2 : translate (osPathJoin new_temp_path "temp") ∈ k.dirs
    · constructor <;>
        simp [update_temp_path, temp_path, resolvedTemp_set, h1, h2, hne,
          moveFs]
    · constructor <;>
        simp [update_temp_path, temp_path, resolvedTemp_set, h1, h2, hne,
          moveFs]
  · have hsym : translate (osPathJoin new_temp_path "temp") ≠
        resolvedTemp translate k.settings := Ne.symm hne
    by_cases h2 : translate (osPathJoin new_temp_path "temp") ∈ k.dirs
    · constructor <;>
        simp [update_temp_path, temp_path, resolvedTemp_set, h1, h2, hne,
          hsym, moveFs]
    · constructor <;>
        simp [update_temp_path, temp_path, resolvedTemp_set, h1, h2, hne,
          hsym, moveFs]

/-- C10 counterexample: starting from an empty filesystem, updating the
temp-path setting to a value that resolves to the same path as before
performs no move, but it does change the filesystem — `temp_path()`
creates the (previously absent) temp directory — so "the filesystem is
left unchanged" fails. -/
theorem C10_counterexample_same_path_but_fs_changed :
    resolvedTemp id
        (set_setting kodiEmpty.settings "temp_path" defaultTempSetting) =
      resolvedTemp id kodiEmpty.settings ∧
    (update_temp_path id defaultTempSetting kodiEmpty).2 =
      [TEv.mkdirs (resolvedTemp id kodiEmpty.settings)] ∧
    (update_temp_path id defaultTempSetting kodiEmpty).1.dirs =
      [resolvedTemp id kodiEmpty.settings] ∧
    kodiEmpty.dirs = [] := by
  refine ⟨by decide, by decide, by decide, rfl⟩

/-- C10 (amended): `update_temp_path` always records the new setting, and
emits a filesystem move iff the resolved temp path changes; when the new
setting resolves to the same path, no move happens but the filesystem is
not necessarily unchanged — the call still creates the temp directory if
it was absent (and that is its only filesystem effect). -/
theorem C10_amended_move_iff_resolved_changes (translate : String → String)
    (new_temp_path : String) (k : Kodi) :
    (update_temp_path translate new_temp_path k).1.settings =
      set_setting k.settings "temp_path" new_temp_path ∧
    (∀ d, get_setting
        (update_temp_path translate new_temp_path k).1.settings
        "temp_path" d = new_temp_path) ∧
    ((∃ s t, TEv.move s t ∈ (update_temp_path translate new_temp_path k).2)
      ↔ resolvedTemp translate k.settings ≠
          translate (osPathJoin new_temp_path "temp")) ∧
    (resolvedTemp translate k.settings =
        translate (osPathJoin new_temp_path "temp") →
      ((update_temp_path translate new_temp_path k).1.dirs =
        if resolvedTemp translate k.settings ∈ k.dirs then k.dirs
        else k.dirs ++ [resolvedTemp translate k.settings]) ∧
      ((update_temp_path translate new_temp_path k).2 =
        if resolvedTemp translate k.settings ∈ k.dirs then []
        else [TEv.mkdirs (resolvedTemp translate k.settings)])) := by
  by_cases heq : resolvedTemp translate k.settings =
      translate (osPathJoin new_temp_path "temp")
  · have he := update_temp_path_same translate new_temp_path k heq
    by_cases h1 : resolvedTemp translate k.settings ∈ k.dirs
    · rw [he, if_pos h1]
      refine ⟨rfl, fun d => get_set_setting _ _ _ _, ?_,
        fun _ => ⟨by simp [h1], by simp [h1]⟩⟩
      constructor
      · rintro ⟨s, t, hmem⟩
        simp at hmem
      · intro hne
        exact absurd heq hne
    · rw [he, if_neg h1]
      refine ⟨rfl, fun d => get_set_setting _ _ _ _, ?_,
        fun _ => ⟨by simp [h1], by simp [h1]⟩⟩
      constructor
      · rintro ⟨s, t, hmem⟩
        simp at hmem
      · intro hne
        exact absurd heq hne
  · obtain ⟨hs, hm⟩ := update_temp_path_move translate new_temp_path k heq
    refine ⟨hs, fun d => by rw [hs]; exact get_set_setting _ _ _ _, ?_,
      fun h => absurd h heq⟩
    exact ⟨fun _ => heq, fun _ => ⟨_, _, hm⟩⟩

/-- C10 amended, instantiated: the setting is recorded. -/
theorem C10_amended_witness :
    (update_temp_path id defaultTempSetting kodiEmpty).1.settings =
      set_setting kodiEmpty.settings "temp_path" defaultTempSetting :=
  (C10_amended_move_iff_resolved_changes id defaultTempSetting kodiEmpty).1

end ISH

